import Mathlib

/-!
Shallow embedding of the web-raytracer core (src/js/math.js, src/js/raytracer.js,
the Camera from src/unnamed/part_008) over the real numbers, followed by theorems
settling the frozen claims about the natural-language specification.

JavaScript floating-point numbers are idealized as real numbers; machine `Infinity`
for a directional light's distance is modelled by `Option ℝ` (`none` = infinite).
-/

noncomputable section

namespace Raytracer

/-- Embeds the Vector3 class of math.js: a 3-component real vector. -/
structure Vector3 where
  x : ℝ
  y : ℝ
  z : ℝ
deriving DecidableEq

/-- Embeds `dot` of math.js. -/
def dot (v1 v2 : Vector3) : ℝ :=
  v1.x * v2.x + v1.y * v2.y + v1.z * v2.z

/-- Embeds `cross` of math.js. -/
def cross (v1 v2 : Vector3) : Vector3 :=
  ⟨v1.y * v2.z - v1.z * v2.y, v1.z * v2.x - v1.x * v2.z, v1.x * v2.y - v1.y * v2.x⟩

/-- Embeds `length` of math.js: `sqrt (dot v v)`. -/
def length (v : Vector3) : ℝ :=
  Real.sqrt (dot v v)

/-- Embeds `normalize` of math.js: returns the zero vector when the length is 0. -/
def normalize (v : Vector3) : Vector3 :=
  if length v = 0 then ⟨0, 0, 0⟩ else ⟨v.x / length v, v.y / length v, v.z / length v⟩

/-- Embeds `add` of math.js. -/
def add (v1 v2 : Vector3) : Vector3 :=
  ⟨v1.x + v2.x, v1.y + v2.y, v1.z + v2.z⟩

/-- Embeds `subtract` of math.js. -/
def subtract (v1 v2 : Vector3) : Vector3 :=
  ⟨v1.x - v2.x, v1.y - v2.y, v1.z - v2.z⟩

/-- Embeds `scale` of math.js. -/
def scale (v : Vector3) (s : ℝ) : Vector3 :=
  ⟨v.x * s, v.y * s, v.z * s⟩

/-- Embeds the Ray class of raytracer.js. -/
structure Ray where
  origin : Vector3
  direction : Vector3

/-- Embeds `Ray.at`: the point at parameter t along the ray (`at` is reserved in Lean). -/
def rayAt (ray : Ray) (t : ℝ) : Vector3 :=
  add ray.origin (scale ray.direction t)

/-- RGB color record `{r, g, b}` used throughout raytracer.js. -/
structure Color where
  r : ℝ
  g : ℝ
  b : ℝ
deriving DecidableEq

/-- Embeds the Material class of raytracer.js with its constructor defaults.
The optional texture is omitted: `calculateLighting` reads `material.color` directly. -/
structure Material where
  color : Color
  diffuse : ℝ := 0.7
  specular : ℝ := 0.3
  shininess : ℝ := 32
  ambient : ℝ := 0.1
  reflection : ℝ := 0
  transparency : ℝ := 0
  refractiveIndex : ℝ := 1.5

/-- Embeds the Intersection class of raytracer.js. -/
structure Intersection where
  point : Vector3
  distance : ℝ
  normal : Vector3
  material : Material

/-- Embeds the Geometry hierarchy (Sphere, Plane) of raytracer.js as a sum type. -/
inductive Geometry where
  | sphere (center : Vector3) (radius : ℝ) (material : Material)
  | plane (point : Vector3) (normal : Vector3) (material : Material)

/-- Embeds the Plane constructor, which normalizes the supplied normal. -/
def mkPlane (point normal : Vector3) (material : Material) : Geometry :=
  Geometry.plane point (normalize normal) material

/-- Quadratic coefficient `a = dot(d, d)` of Sphere.intersect. -/
def sphereA (ray : Ray) : ℝ :=
  dot ray.direction ray.direction

/-- Quadratic coefficient `b = 2 dot(o - c, d)` of Sphere.intersect. -/
def sphereB (center : Vector3) (ray : Ray) : ℝ :=
  2 * dot (subtract ray.origin center) ray.direction

/-- Quadratic coefficient `c = dot(o - c, o - c) - r^2` of Sphere.intersect. -/
def sphereC (center : Vector3) (radius : ℝ) (ray : Ray) : ℝ :=
  dot (subtract ray.origin center) (subtract ray.origin center) - radius * radius

/-- Discriminant `b*b - 4*a*c` of Sphere.intersect. -/
def sphereDisc (center : Vector3) (radius : ℝ) (ray : Ray) : ℝ :=
  sphereB center ray * sphereB center ray - 4 * sphereA ray * sphereC center radius ray

/-- First candidate root `(-b - sqrt disc) / (2 a)` tried by Sphere.intersect. -/
def sphereT1 (center : Vector3) (radius : ℝ) (ray : Ray) : ℝ :=
  (-sphereB center ray - Real.sqrt (sphereDisc center radius ray)) / (2 * sphereA ray)

/-- Second candidate root `(-b + sqrt disc) / (2 a)` tried by Sphere.intersect. -/
def sphereT2 (center : Vector3) (radius : ℝ) (ray : Ray) : ℝ :=
  (-sphereB center ray + Real.sqrt (sphereDisc center radius ray)) / (2 * sphereA ray)

/-- Intersection record built by Sphere.intersect at parameter t:
point `ray.at t`, distance t, outward normal `normalize (point - center)`. -/
def sphereHit (center : Vector3) (material : Material) (ray : Ray) (t : ℝ) : Intersection :=
  ⟨rayAt ray t, t, normalize (subtract (rayAt ray t) center), material⟩

/-- Embeds `Sphere.intersect` of raytracer.js.  Rejects a negative discriminant,
tries the root `(-b - sqrt d)/(2a)` first, falls back to `(-b + sqrt d)/(2a)` when
the first is below the 0.001 self-intersection guard, rejects when both are. -/
def sphereIntersect (center : Vector3) (radius : ℝ) (material : Material) (ray : Ray) :
    Option Intersection :=
  if sphereDisc center radius ray < 0 then
    none
  else if sphereT1 center radius ray < 0.001 then
    if sphereT2 center radius ray < 0.001 then
      none
    else
      some (sphereHit center material ray (sphereT2 center radius ray))
  else
    some (sphereHit center material ray (sphereT1 center radius ray))

/-- Denominator `dot(d, n)` of Plane.intersect. -/
def planeDenom (normal : Vector3) (ray : Ray) : ℝ :=
  dot ray.direction normal

/-- Parameter `t = dot(point - o, n) / dot(d, n)` of Plane.intersect. -/
def planeT (point normal : Vector3) (ray : Ray) : ℝ :=
  dot (subtract point ray.origin) normal / planeDenom normal ray

/-- Embeds `Plane.intersect` of raytracer.js.  Rejects `|denom| < 0.0001` (parallel),
`denom > 0` (back-face), and `t < 0.001`; otherwise reports the hit with the plane's
stored normal. -/
def planeIntersect (point normal : Vector3) (material : Material) (ray : Ray) :
    Option Intersection :=
  if |planeDenom normal ray| < 0.0001 then
    none
  else if planeDenom normal ray > 0 then
    none
  else if planeT point normal ray < 0.001 then
    none
  else
    some ⟨rayAt ray (planeT point normal ray), planeT point normal ray, normal, material⟩

/-- Polymorphic `intersect` dispatch over the Geometry variants. -/
def intersect : Geometry → Ray → Option Intersection
  | Geometry.sphere c r m, ray => sphereIntersect c r m ray
  | Geometry.plane p n m, ray => planeIntersect p n m ray

/-- Embeds the Light class: a point or directional emitter with color and intensity. -/
inductive Light where
  | point (position : Vector3) (color : Color) (intensity : ℝ)
  | directional (direction : Vector3) (color : Color) (intensity : ℝ)

/-- Color of a light. -/
def Light.color : Light → Color
  | Light.point _ c _ => c
  | Light.directional _ c _ => c

/-- Intensity of a light. -/
def Light.intensity : Light → ℝ
  | Light.point _ _ i => i
  | Light.directional _ _ i => i

/-- Embeds the Scene class: ordered objects and lights. -/
structure Scene where
  objects : List Geometry
  lights : List Light

/-- Loop body of `computeRayIntersection`: keep the incoming candidate when it is
strictly closer than the nearest hit so far (every hit beats the initial infinite
nearest distance). -/
def nearestStep (ray : Ray) (acc : Option Intersection) (obj : Geometry) :
    Option Intersection :=
  match intersect obj ray with
  | none => acc
  | some i =>
    match acc with
    | none => some i
    | some j => if i.distance < j.distance then some i else some j

/-- Embeds `computeRayIntersection`: linear scan keeping the nearest hit
(`intersection.distance < nearestDistance`, initial distance infinite). -/
def computeRayIntersection (ray : Ray) (scene : Scene) : Option Intersection :=
  scene.objects.foldl (nearestStep ray) none

/-- Embeds the global `raytracingSettings` record of raytracer.js. -/
structure RaytracingSettings where
  enableShadows : Bool
  maxReflectionDepth : ℕ
  samplesPerPixel : ℕ
  enableRefraction : Bool

/-- Default values of `raytracingSettings`. -/
def raytracingSettings : RaytracingSettings :=
  ⟨true, 3, 1, true⟩

/-- Clamp of a single channel: `min(1, max(0, x))`. -/
def clamp01 (x : ℝ) : ℝ :=
  min 1 (max 0 x)

/-- Channel-wise clamp of a color to `[0, 1]`. -/
def clampColor (c : Color) : Color :=
  ⟨clamp01 c.r, clamp01 c.g, clamp01 c.b⟩

/-- Channel-wise color addition (the `result.r += ...` accumulation). -/
def addColor (c d : Color) : Color :=
  ⟨c.r + d.r, c.g + d.g, c.b + d.b⟩

/-- Direction from the shading point toward a light, as computed in calculateLighting. -/
def lightDirOf (point : Vector3) : Light → Vector3
  | Light.directional dir _ _ => scale dir (-1)
  | Light.point pos _ _ => normalize (subtract pos point)

/-- Distance from the shading point to a light; `none` models the JS `Infinity`
used for directional lights. -/
def lightDistOf (point : Vector3) : Light → Option ℝ
  | Light.directional _ _ _ => none
  | Light.point pos _ _ => some (length (subtract pos point))

/-- Embeds the shadow test of calculateLighting: when shadows are enabled, cast a
ray from the hit point toward the light and report a shadow when some object is hit
closer than the light (any hit shadows a directional light). -/
def inShadow (s : RaytracingSettings) (point lightDir : Vector3) (lightDist : Option ℝ)
    (scene : Scene) : Bool :=
  s.enableShadows &&
    match computeRayIntersection ⟨point, lightDir⟩ scene with
    | none => false
    | some si =>
      match lightDist with
      | none => true
      | some d => decide (si.distance < d)

/-- Per-light contribution accumulated by the loop body of calculateLighting:
zero when the light is shadowed, otherwise the diffuse plus specular Phong terms,
with the specular term computed only when the lambertian factor is positive, and
inverse-square-like attenuation applied to point lights only. -/
def lightContribution (s : RaytracingSettings) (inter : Intersection) (viewDir : Vector3)
    (scene : Scene) (light : Light) : Color :=
  let lightDir := lightDirOf inter.point light
  let lightDist := lightDistOf inter.point light
  if inShadow s inter.point lightDir lightDist scene then ⟨0, 0, 0⟩
  else
    let lambertian := max (dot inter.normal lightDir) 0
    let specular : ℝ :=
      if 0 < lambertian then
        let reflectDir := subtract (scale inter.normal (2 * dot inter.normal lightDir)) lightDir
        Real.rpow (max (dot reflectDir viewDir) 0) inter.material.shininess
      else 0
    let intensity : ℝ :=
      match light with
      | Light.point pos _ li =>
        li / (1 + 0.01 * length (subtract pos inter.point) * length (subtract pos inter.point))
      | Light.directional _ _ li => li
    let m := inter.material
    ⟨m.color.r * m.diffuse * lambertian * light.color.r * intensity
        + light.color.r * (m.specular * specular * intensity),
      m.color.g * m.diffuse * lambertian * light.color.g * intensity
        + light.color.g * (m.specular * specular * intensity),
      m.color.b * m.diffuse * lambertian * light.color.b * intensity
        + light.color.b * (m.specular * specular * intensity)⟩

/-- Embeds `calculateLighting` of raytracer.js: ambient term, then the per-light
loop accumulating diffuse and specular contributions, then the final clamp.
The global settings record is passed explicitly. -/
def calculateLighting (s : RaytracingSettings) (inter : Intersection) (ray : Ray)
    (scene : Scene) : Color :=
  let viewDir := scale ray.direction (-1)
  let m := inter.material
  let ambient : Color := ⟨m.color.r * m.ambient, m.color.g * m.ambient, m.color.b * m.ambient⟩
  clampColor
    (scene.lights.foldl (fun c light => addColor c (lightContribution s inter viewDir scene light))
      ambient)

/-- Embeds `calculateReflection`: `incident - 2 dot(incident, normal) * normal`. -/
def calculateReflection (incident normal : Vector3) : Vector3 :=
  subtract incident (scale normal (2 * dot incident normal))

/-- Cosine term of calculateRefraction after the entering/exiting branch:
`-dot(incident, normal)` when entering (`dot < 0`), `dot(incident, normal)` otherwise. -/
def refrCosi (incident normal : Vector3) : ℝ :=
  if dot incident normal < 0 then -dot incident normal else dot incident normal

/-- Index ratio `etai / etat` of calculateRefraction: `1 / refrIndex` when entering,
`refrIndex / 1` after the exit-branch swap. -/
def refrEta (incident normal : Vector3) (refrIndex : ℝ) : ℝ :=
  if dot incident normal < 0 then 1 / refrIndex else refrIndex / 1

/-- Normal used by calculateRefraction: unchanged when entering, negated when exiting. -/
def refrN (incident normal : Vector3) : Vector3 :=
  if dot incident normal < 0 then normal else scale normal (-1)

/-- Snell discriminant `1 - eta^2 (1 - cosi^2)` of calculateRefraction. -/
def refrK (incident normal : Vector3) (refrIndex : ℝ) : ℝ :=
  1 - refrEta incident normal refrIndex * refrEta incident normal refrIndex *
    (1 - refrCosi incident normal * refrCosi incident normal)

/-- Embeds `calculateRefraction` of raytracer.js: `none` on total internal
reflection (`k ≤ 0`), otherwise the normalized refracted direction
`normalize (incident * eta + n * (eta * cosi - sqrt k))`. -/
def calculateRefraction (incident normal : Vector3) (refrIndex : ℝ) : Option Vector3 :=
  if refrK incident normal refrIndex ≤ 0 then
    none
  else
    some (normalize (add (scale incident (refrEta incident normal refrIndex))
      (scale (refrN incident normal)
        (refrEta incident normal refrIndex * refrCosi incident normal -
          Real.sqrt (refrK incident normal refrIndex)))))

/-- First refractive index of calculateFresnelReflection after the branch on
`dot(incident, normal) > 0` (exit swaps the indices). -/
def fresnelEtai (incident normal : Vector3) (refrIndex : ℝ) : ℝ :=
  if dot incident normal > 0 then refrIndex else 1

/-- Second refractive index of calculateFresnelReflection after the branch. -/
def fresnelEtat (incident normal : Vector3) (refrIndex : ℝ) : ℝ :=
  if dot incident normal > 0 then 1 else refrIndex

/-- Sine term `sint = etai/etat * sqrt(max(0, 1 - cosi^2))` of calculateFresnelReflection. -/
def fresnelSint (incident normal : Vector3) (refrIndex : ℝ) : ℝ :=
  fresnelEtai incident normal refrIndex / fresnelEtat incident normal refrIndex *
    Real.sqrt (max 0 (1 - dot incident normal * dot incident normal))

/-- Embeds `calculateFresnelReflection` of raytracer.js: full reflectance 1 on total
internal reflection (`sint ≥ 1`), otherwise the average of the squared s- and
p-polarized Fresnel coefficients. -/
def calculateFresnelReflection (incident normal : Vector3) (refrIndex : ℝ) : ℝ :=
  if fresnelSint incident normal refrIndex ≥ 1 then
    1
  else
    let etai := fresnelEtai incident normal refrIndex
    let etat := fresnelEtat incident normal refrIndex
    let cost := Real.sqrt (max 0 (1 - fresnelSint incident normal refrIndex *
      fresnelSint incident normal refrIndex))
    let cosi := |dot incident normal|
    let rs := (etat * cosi - etai * cost) / (etat * cosi + etai * cost)
    let rp := (etai * cosi - etat * cost) / (etai * cosi + etat * cost)
    (rs * rs + rp * rp) / 2

/-- Hard recursion cap of traceRay (`const MAX_DEPTH = 5`). -/
def MAX_DEPTH : ℕ := 5

/-- Linear blend `c * (1 - k) + d * k` used by traceRay for reflection and refraction. -/
def blendColor (c d : Color) (k : ℝ) : Color :=
  ⟨c.r * (1 - k) + d.r * k, c.g * (1 - k) + d.g * k, c.b * (1 - k) + d.b * k⟩

/-- Embeds `traceRay` of raytracer.js (the debug counters on `window` are pure
instrumentation and are omitted): background on depth overflow or miss, otherwise
Phong shading blended with recursively traced reflection and refraction rays,
clamped at the end.  The global settings record is passed explicitly. -/
def traceRay (s : RaytracingSettings) (ray : Ray) (scene : Scene) (backgroundColor : Color)
    (depth : ℕ) : Color :=
  if h : depth > MAX_DEPTH then
    backgroundColor
  else
    match computeRayIntersection ray scene with
    | none => backgroundColor
    | some inter =>
      let color := calculateLighting s inter ray scene
      let color1 :=
        if 0 < inter.material.reflection then
          let reflectDir := calculateReflection ray.direction inter.normal
          let reflectRay : Ray := ⟨add inter.point (scale inter.normal 0.001), reflectDir⟩
          blendColor color (traceRay s reflectRay scene backgroundColor (depth + 1))
            inter.material.reflection
        else color
      let color2 :=
        if 0 < inter.material.transparency ∧ s.enableRefraction = true then
          match calculateRefraction ray.direction inter.normal inter.material.refractiveIndex with
          | none => color1
          | some refractDir =>
            let fresnelReflect :=
              calculateFresnelReflection ray.direction inter.normal inter.material.refractiveIndex
            let refractRay : Ray := ⟨subtract inter.point (scale inter.normal 0.001), refractDir⟩
            blendColor color1 (traceRay s refractRay scene backgroundColor (depth + 1))
              (inter.material.transparency * (1 - fresnelReflect))
        else color1
      clampColor color2
termination_by MAX_DEPTH + 1 - depth
decreasing_by
  all_goals simp [MAX_DEPTH] at h ⊢; omega

/-- Embeds the Camera class of src/unnamed/part_008 (position and orthonormal basis;
the field-of-view bookkeeping is not involved in any claim about pan/tilt). -/
structure Camera where
  position : Vector3
  direction : Vector3
  right : Vector3
  up : Vector3

/-- Embeds the Camera constructor's basis computation from position, lookAt, upGuide. -/
def mkCamera (position lookAt upGuide : Vector3) : Camera :=
  let direction := normalize (subtract lookAt position)
  let right := normalize (cross direction upGuide)
  ⟨position, direction, right, normalize (cross right direction)⟩

/-- Rotated (pre-normalization) direction computed by `Camera.pan`: rotation of the
(x, z) components by `-degrees` converted to radians. -/
def panDir (cam : Camera) (degrees : ℝ) : Vector3 :=
  let radians := -degrees * Real.pi / 180
  ⟨cam.direction.x * Real.cos radians - cam.direction.z * Real.sin radians,
    cam.direction.y,
    cam.direction.x * Real.sin radians + cam.direction.z * Real.cos radians⟩

/-- Embeds `Camera.pan`: rotate direction in the (x, z) plane, renormalize, then
recompute `right = normalize (cross direction up)` and `up = normalize (cross right direction)`. -/
def Camera.pan (cam : Camera) (degrees : ℝ) : Camera :=
  let dir := normalize (panDir cam degrees)
  let right := normalize (cross dir cam.up)
  let up := normalize (cross right dir)
  ⟨cam.position, dir, right, up⟩

/-- Rotated (pre-normalization) direction computed by `Camera.tilt`: rotation of the
(y, z) components by `degrees` converted to radians. -/
def tiltDir (cam : Camera) (degrees : ℝ) : Vector3 :=
  let radians := degrees * Real.pi / 180
  ⟨cam.direction.x,
    cam.direction.y * Real.cos radians - cam.direction.z * Real.sin radians,
    cam.direction.y * Real.sin radians + cam.direction.z * Real.cos radians⟩

/-- Embeds `Camera.tilt`: rotate direction in the (y, z) plane, renormalize, keep
`right` fixed, and recompute only `up = normalize (cross right direction)`. -/
def Camera.tilt (cam : Camera) (degrees : ℝ) : Camera :=
  let dir := normalize (tiltDir cam degrees)
  let up := normalize (cross cam.right dir)
  ⟨cam.position, dir, cam.right, up⟩

/-! General-purpose lemmas about the vector kernel and clamping. -/

theorem dot_self_nonneg (v : Vector3) : 0 ≤ dot v v := by
  simp only [dot]
  nlinarith [sq_nonneg v.x, sq_nonneg v.y, sq_nonneg v.z]

theorem length_nonneg (v : Vector3) : 0 ≤ length v :=
  Real.sqrt_nonneg _

theorem length_mul_self (v : Vector3) : length v * length v = dot v v :=
  Real.mul_self_sqrt (dot_self_nonneg v)

theorem length_eq_one_of_dot (v : Vector3) (h : dot v v = 1) : length v = 1 := by
  rw [length, h, Real.sqrt_one]

theorem dot_comm (a b : Vector3) : dot a b = dot b a := by
  simp only [dot]; ring

theorem dot_normalize_left (a b : Vector3) : dot (normalize a) b = dot a b / length a := by
  by_cases h : length a = 0
  · simp [normalize, h, dot]
  · simp only [normalize, if_neg h, dot]
    field_simp

theorem dot_normalize_right (a b : Vector3) : dot a (normalize b) = dot a b / length b := by
  rw [dot_comm, dot_normalize_left, dot_comm]

theorem length_normalize (v : Vector3) (h : length v ≠ 0) : length (normalize v) = 1 := by
  apply length_eq_one_of_dot
  have hsq : length v * length v = dot v v := length_mul_self v
  simp only [normalize, if_neg h, dot]
  field_simp
  simp only [dot] at hsq
  nlinarith [hsq]

theorem dot_cross_left (a b : Vector3) : dot (cross a b) a = 0 := by
  simp only [dot, cross]; ring

theorem dot_cross_right (a b : Vector3) : dot (cross a b) b = 0 := by
  simp only [dot, cross]; ring

theorem cross_lagrange (a b : Vector3) :
    dot (cross a b) (cross a b) = dot a a * dot b b - dot a b * dot a b := by
  simp only [dot, cross]; ring

theorem clamp01_nonneg (x : ℝ) : 0 ≤ clamp01 x := by
  simp only [clamp01]
  rcases le_total (1 : ℝ) (max 0 x) with h | h
  · rw [min_eq_left h]; norm_num
  · rw [min_eq_right h]; exact le_max_left 0 x

theorem clamp01_le_one (x : ℝ) : clamp01 x ≤ 1 :=
  min_le_left 1 _

theorem clamp01_mono {x y : ℝ} (h : x ≤ y) : clamp01 x ≤ clamp01 y :=
  min_le_min le_rfl (max_le_max le_rfl h)

theorem sqrt_four : Real.sqrt 4 = 2 := by
  rw [show (4 : ℝ) = 2 ^ 2 by norm_num, Real.sqrt_sq (by norm_num : (0 : ℝ) ≤ 2)]

theorem max_zero_one : max (0 : ℝ) 1 = 1 :=
  max_eq_right zero_le_one

/-- C8: `calculateFresnelReflection` returns 1 whenever
`sint = (etai/etat) * sqrt(max(0, 1 - cosi^2))` is at least 1 (total internal
reflection), and at normal incidence with refractiveIndex 1.5 — incident (0,-1,0)
against normal (0,1,0) — it evaluates to exactly 0.04 in exact arithmetic. -/
theorem fresnel_tir_and_normal_incidence :
    (∀ (incident normal : Vector3) (refrIndex : ℝ),
        1 ≤ fresnelSint incident normal refrIndex →
        calculateFresnelReflection incident normal refrIndex = 1)
  ∧ calculateFresnelReflection ⟨0, -1, 0⟩ ⟨0, 1, 0⟩ 1.5 = 0.04 := by
  constructor
  · intro incident normal refrIndex h
    simp [calculateFresnelReflection, ge_iff_le, h]
  · have hdot : dot ⟨0, -1, 0⟩ ⟨0, 1, 0⟩ = -1 := by norm_num [dot]
    have hsub : (1 : ℝ) - dot ⟨0, -1, 0⟩ ⟨0, 1, 0⟩ * dot ⟨0, -1, 0⟩ ⟨0, 1, 0⟩ = 0 := by
      rw [hdot]; norm_num
    have hsint : fresnelSint ⟨0, -1, 0⟩ ⟨0, 1, 0⟩ 1.5 = 0 := by
      rw [fresnelSint, hsub]
      simp [Real.sqrt_zero]
    have hetai : fresnelEtai ⟨0, -1, 0⟩ ⟨0, 1, 0⟩ 1.5 = 1 := by
      rw [fresnelEtai, hdot]; norm_num
    have hetat : fresnelEtat ⟨0, -1, 0⟩ ⟨0, 1, 0⟩ 1.5 = 1.5 := by
      rw [fresnelEtat, hdot]; norm_num
    rw [calculateFresnelReflection, if_neg (by rw [hsint]; norm_num)]
    rw [hsint, hetai, hetat, hdot]
    norm_num [max_zero_one, Real.sqrt_one]

/-- Witness for `fresnel_tir_and_normal_incidence`: a grazing ray against a rarer
medium (refrIndex 0.5) has sint = 2 ≥ 1, and the function indeed returns 1. -/
theorem fresnel_tir_and_normal_incidence_witness :
    1 ≤ fresnelSint ⟨1, 0, 0⟩ ⟨0, 1, 0⟩ 0.5 ∧
    calculateFresnelReflection ⟨1, 0, 0⟩ ⟨0, 1, 0⟩ 0.5 = 1 := by
  have h : 1 ≤ fresnelSint ⟨1, 0, 0⟩ ⟨0, 1, 0⟩ 0.5 := by
    have hdot : dot ⟨1, 0, 0⟩ ⟨0, 1, 0⟩ = 0 := by norm_num [dot]
    rw [fresnelSint, hdot, fresnelEtai, fresnelEtat, hdot]
    norm_num [max_zero_one, Real.sqrt_one]
  exact ⟨h, fresnel_tir_and_normal_incidence.1 _ _ _ h⟩

/-- C7: `calculateRefraction` returns no direction exactly when
`k = 1 - eta^2 (1 - cosi^2) ≤ 0` (total internal reflection), where cosi, eta and
the working normal come from the entering/exiting test on the sign of
`dot(incident, normal)` (entering flips cosi positive and keeps the normal;
exiting swaps the indices so `eta = refrIndex` and negates the normal); when
`k > 0` it returns the normalization of
`incident * eta + n * (eta * cosi - sqrt k)`. -/
theorem refraction_tir_and_direction :
    ∀ (incident normal : Vector3) (refrIndex : ℝ),
      (calculateRefraction incident normal refrIndex = none ↔
        refrK incident normal refrIndex ≤ 0)
      ∧ (0 < refrK incident normal refrIndex →
          calculateRefraction incident normal refrIndex =
            some (normalize (add (scale incident (refrEta incident normal refrIndex))
              (scale (refrN incident normal)
                (refrEta incident normal refrIndex * refrCosi incident normal -
                  Real.sqrt (refrK incident normal refrIndex))))))
      ∧ (dot incident normal < 0 →
          refrCosi incident normal = -dot incident normal ∧
          refrEta incident normal refrIndex = 1 / refrIndex ∧
          refrN incident normal = normal)
      ∧ (0 ≤ dot incident normal →
          refrCosi incident normal = dot incident normal ∧
          refrEta incident normal refrIndex = refrIndex ∧
          refrN incident normal = scale normal (-1)) := by
  intro incident normal refrIndex
  refine ⟨⟨fun h => ?_, fun h => by simp [calculateRefraction, h]⟩, fun h => ?_, fun h => ?_, fun h => ?_⟩
  · by_contra hk
    rw [calculateRefraction, if_neg hk] at h
    exact Option.some_ne_none _ h
  · rw [calculateRefraction, if_neg (not_le.mpr h)]
  · simp [refrCosi, refrEta, refrN, h]
  · simp [refrCosi, refrEta, refrN, not_lt.mpr h]

/-- Witness for `refraction_tir_and_direction`: normal incidence from air into
glass (refrIndex 1.5) has k = 1 > 0 and yields the refracted direction. -/
theorem refraction_tir_and_direction_witness :
    0 < refrK ⟨0, -1, 0⟩ ⟨0, 1, 0⟩ 1.5 ∧
    calculateRefraction ⟨0, -1, 0⟩ ⟨0, 1, 0⟩ 1.5 =
      some (normalize (add (scale ⟨0, -1, 0⟩ (refrEta ⟨0, -1, 0⟩ ⟨0, 1, 0⟩ 1.5))
        (scale (refrN ⟨0, -1, 0⟩ ⟨0, 1, 0⟩)
          (refrEta ⟨0, -1, 0⟩ ⟨0, 1, 0⟩ 1.5 * refrCosi ⟨0, -1, 0⟩ ⟨0, 1, 0⟩ -
            Real.sqrt (refrK ⟨0, -1, 0⟩ ⟨0, 1, 0⟩ 1.5))))) := by
  have hdot : dot ⟨0, -1, 0⟩ ⟨0, 1, 0⟩ = -1 := by norm_num [dot]
  have hk : 0 < refrK ⟨0, -1, 0⟩ ⟨0, 1, 0⟩ 1.5 := by
    rw [refrK, refrCosi, refrEta, hdot]
    norm_num
  exact ⟨hk, (refraction_tir_and_direction _ _ _).2.1 hk⟩

/-- C5 counterexample: a ray whose direction makes `|dot(d, n)| = 0.0005 < 0.001`
with the plane normal is NOT rejected as parallel (the code's guard is 0.0001, not
the claimed 0.001): it produces a hit at distance 2000. -/
theorem plane_parallel_guard_cex :
    |planeDenom ⟨0, 1, 0⟩ ⟨⟨0, 1, 0⟩, ⟨0, -0.0005, 1⟩⟩| < 0.001 ∧
    (planeIntersect ⟨0, 0, 0⟩ ⟨0, 1, 0⟩ { color := ⟨1, 1, 1⟩ }
        ⟨⟨0, 1, 0⟩, ⟨0, -0.0005, 1⟩⟩).map Intersection.distance = some 2000 := by
  have hdenom : planeDenom ⟨0, 1, 0⟩ ⟨⟨0, 1, 0⟩, ⟨0, -0.0005, 1⟩⟩ = -0.0005 := by
    norm_num [planeDenom, dot]
  have ht : planeT ⟨0, 0, 0⟩ ⟨0, 1, 0⟩ ⟨⟨0, 1, 0⟩, ⟨0, -0.0005, 1⟩⟩ = 2000 := by
    rw [planeT, hdenom]
    norm_num [dot, subtract]
  have habs : |(-0.0005 : ℝ)| = 0.0005 := by
    rw [abs_of_neg (by norm_num : (-0.0005 : ℝ) < 0)]; norm_num
  constructor
  · rw [hdenom, habs]; norm_num
  · have hres : planeIntersect ⟨0, 0, 0⟩ ⟨0, 1, 0⟩ { color := ⟨1, 1, 1⟩ }
        ⟨⟨0, 1, 0⟩, ⟨0, -0.0005, 1⟩⟩ =
        some ⟨rayAt ⟨⟨0, 1, 0⟩, ⟨0, -0.0005, 1⟩⟩ 2000, 2000, ⟨0, 1, 0⟩,
          { color := ⟨1, 1, 1⟩ }⟩ := by
      rw [planeIntersect, hdenom, ht, if_neg (by rw [habs]; norm_num),
        if_neg (by norm_num), if_neg (by norm_num)]
    rw [hres]
    rfl

/-- C5 (amended): `Plane.intersect` rejects when `|dot(d, n)| < 0.0001` (the
parallel guard in the code is 0.0001, not the 0.001 self-intersection ε), when
`dot(d, n) > 0` (back-face), or when `t = dot(point - o, n) / dot(d, n) < 0.001`;
otherwise it returns the hit at distance t with the plane's stored normal.  The
plane {point:(0,-1,0), normal:(0,1,0)} hit by the ray origin (0,5,0), direction
(0,-1,0) yields distance 6 and hit-point y-coordinate -1. -/
theorem plane_intersect_cases_and_scenario :
    (∀ (point normal : Vector3) (material : Material) (ray : Ray),
        (|planeDenom normal ray| < 0.0001 → planeIntersect point normal material ray = none)
      ∧ (0 < planeDenom normal ray → planeIntersect point normal material ray = none)
      ∧ (0.0001 ≤ |planeDenom normal ray| → planeDenom normal ray < 0 →
          planeT point normal ray < 0.001 → planeIntersect point normal material ray = none)
      ∧ (0.0001 ≤ |planeDenom normal ray| → planeDenom normal ray < 0 →
          0.001 ≤ planeT point normal ray →
          planeIntersect point normal material ray =
            some ⟨rayAt ray (planeT point normal ray), planeT point normal ray,
              normal, material⟩))
  ∧ (∀ material : Material,
      (intersect (mkPlane ⟨0, -1, 0⟩ ⟨0, 1, 0⟩ material) ⟨⟨0, 5, 0⟩, ⟨0, -1, 0⟩⟩).map
          Intersection.distance = some 6
      ∧ (intersect (mkPlane ⟨0, -1, 0⟩ ⟨0, 1, 0⟩ material) ⟨⟨0, 5, 0⟩, ⟨0, -1, 0⟩⟩).map
          (fun i => i.point.y) = some (-1)) := by
  constructor
  · intro point normal material ray
    refine ⟨fun h => ?_, fun h => ?_, fun h1 h2 h3 => ?_, fun h1 h2 h3 => ?_⟩
    · rw [planeIntersect, if_pos h]
    · rw [planeIntersect]
      by_cases habs : |planeDenom normal ray| < 0.0001
      · rw [if_pos habs]
      · rw [if_neg habs, if_pos h]
    · rw [planeIntersect, if_neg (not_lt.mpr h1), if_neg (not_lt.mpr h2.le).elim,
        if_pos h3]
    · rw [planeIntersect, if_neg (not_lt.mpr h1), if_neg (not_lt.mpr h2.le).elim,
        if_neg (not_lt.mpr h3)]
  · intro material
    have hnorm : normalize ⟨0, 1, 0⟩ = (⟨0, 1, 0⟩ : Vector3) := by
      have hl : length ⟨0, 1, 0⟩ = 1 := by
        rw [length, show dot ⟨0, 1, 0⟩ ⟨0, 1, 0⟩ = 1 by norm_num [dot], Real.sqrt_one]
      rw [normalize, if_neg (by rw [hl]; norm_num), hl]
      norm_num
    have hdenom : planeDenom ⟨0, 1, 0⟩ ⟨⟨0, 5, 0⟩, ⟨0, -1, 0⟩⟩ = -1 := by
      norm_num [planeDenom, dot]
    have ht : planeT ⟨0, -1, 0⟩ ⟨0, 1, 0⟩ ⟨⟨0, 5, 0⟩, ⟨0, -1, 0⟩⟩ = 6 := by
      rw [planeT, hdenom]
      norm_num [dot, subtract]
    have hres : intersect (mkPlane ⟨0, -1, 0⟩ ⟨0, 1, 0⟩ material) ⟨⟨0, 5, 0⟩, ⟨0, -1, 0⟩⟩ =
        some ⟨⟨0, -1, 0⟩, 6, ⟨0, 1, 0⟩, material⟩ := by
      rw [mkPlane, hnorm, intersect, planeIntersect, hdenom, ht]
      norm_num [rayAt, add, scale]
    rw [hres]
    exact ⟨rfl, rfl⟩

/-- Witness for `plane_intersect_cases_and_scenario`: its back-face conjunct applied
to a concrete upward ray leaving the plane. -/
theorem plane_intersect_cases_and_scenario_witness :
    0 < planeDenom ⟨0, 1, 0⟩ ⟨⟨0, 0, 0⟩, ⟨0, 1, 0⟩⟩ ∧
    planeIntersect ⟨0, -1, 0⟩ ⟨0, 1, 0⟩ { color := ⟨1, 1, 1⟩ }
      ⟨⟨0, 0, 0⟩, ⟨0, 1, 0⟩⟩ = none := by
  have h : 0 < planeDenom ⟨0, 1, 0⟩ ⟨⟨0, 0, 0⟩, ⟨0, 1, 0⟩⟩ := by
    norm_num [planeDenom, dot]
  exact ⟨h, (plane_intersect_cases_and_scenario.1 _ _ _ _).2.1 h⟩

/-- C4: `Sphere.intersect` solves the quadratic `a t^2 + b t + c = 0`: it returns
no hit when the discriminant is negative; otherwise both candidate values are
roots of the quadratic, the first candidate is the smaller root, the code falls
back to the larger root when the smaller is below 0.001 and rejects when both
are; a returned hit has distance equal to the chosen root, with
`normal = normalize(hitPoint - center)`.  For a scene with one sphere centered at
(0,0,5) of radius 1 and the ray from the origin along +z, `computeRayIntersection`
returns a hit with distance 4. -/
theorem sphere_intersect_quadratic_and_scenario :
    (∀ (center : Vector3) (radius : ℝ) (material : Material) (ray : Ray),
        sphereDisc center radius ray < 0 → sphereIntersect center radius material ray = none)
  ∧ (∀ (center : Vector3) (radius : ℝ) (ray : Ray),
      0 < sphereA ray → 0 ≤ sphereDisc center radius ray →
        (sphereA ray * (sphereT1 center radius ray * sphereT1 center radius ray) +
            sphereB center ray * sphereT1 center radius ray + sphereC center radius ray = 0
        ∧ sphereA ray * (sphereT2 center radius ray * sphereT2 center radius ray) +
            sphereB center ray * sphereT2 center radius ray + sphereC center radius ray = 0
        ∧ sphereT1 center radius ray ≤ sphereT2 center radius ray
        ∧ ∀ t : ℝ,
            sphereA ray * (t * t) + sphereB center ray * t + sphereC center radius ray = 0 →
            t = sphereT1 center radius ray ∨ t = sphereT2 center radius ray))
  ∧ (∀ (center : Vector3) (radius : ℝ) (material : Material) (ray : Ray),
      0 ≤ sphereDisc center radius ray →
        (sphereT1 center radius ray < 0.001 → sphereT2 center radius ray < 0.001 →
          sphereIntersect center radius material ray = none)
      ∧ (sphereT1 center radius ray < 0.001 → 0.001 ≤ sphereT2 center radius ray →
          sphereIntersect center radius material ray =
            some (sphereHit center material ray (sphereT2 center radius ray)))
      ∧ (0.001 ≤ sphereT1 center radius ray →
          sphereIntersect center radius material ray =
            some (sphereHit center material ray (sphereT1 center radius ray)))
      ∧ ∀ i, sphereIntersect center radius material ray = some i →
          i.point = rayAt ray i.distance ∧
          i.normal = normalize (subtract i.point center))
  ∧ (∀ material : Material,
      (computeRayIntersection ⟨⟨0, 0, 0⟩, ⟨0, 0, 1⟩⟩
          ⟨[Geometry.sphere ⟨0, 0, 5⟩ 1 material], []⟩).map Intersection.distance = some 4) := by
  refine ⟨fun center radius material ray h => ?_, fun center radius ray ha hd => ?_,
    fun center radius material ray hd => ?_, fun material => ?_⟩
  · rw [sphereIntersect, if_pos h]
  · have h2a : (2 * sphereA ray) ≠ 0 := by positivity
    have hane : sphereA ray ≠ 0 := ne_of_gt ha
    have hs : Real.sqrt (sphereDisc center radius ray) * Real.sqrt (sphereDisc center radius ray)
        = sphereB center ray * sphereB center ray -
          4 * sphereA ray * sphereC center radius ray := by
      rw [Real.mul_self_sqrt hd, sphereDisc]
    have ht1 : 2 * sphereA ray * sphereT1 center radius ray =
        -sphereB center ray - Real.sqrt (sphereDisc center radius ray) := by
      rw [sphereT1, mul_div_cancel₀ _ h2a]
    have ht2 : 2 * sphereA ray * sphereT2 center radius ray =
        -sphereB center ray + Real.sqrt (sphereDisc center radius ray) := by
      rw [sphereT2, mul_div_cancel₀ _ h2a]
    refine ⟨?_, ?_, ?_, ?_⟩
    · have h4 : 4 * sphereA ray *
          (sphereA ray * (sphereT1 center radius ray * sphereT1 center radius ray) +
            sphereB center ray * sphereT1 center radius ray + sphereC center radius ray) = 0 := by
        linear_combination (2 * sphereA ray * sphereT1 center radius ray + sphereB center ray -
          Real.sqrt (sphereDisc center radius ray)) * ht1 + hs
      have h4a : (4 * sphereA ray) ≠ 0 := by positivity
      exact (mul_eq_zero.mp h4).resolve_left h4a
    · have h4 : 4 * sphereA ray *
          (sphereA ray * (sphereT2 center radius ray * sphereT2 center radius ray) +
            sphereB center ray * sphereT2 center radius ray + sphereC center radius ray) = 0 := by
        linear_combination (2 * sphereA ray * sphereT2 center radius ray + sphereB center ray +
          Real.sqrt (sphereDisc center radius ray)) * ht2 + hs
      have h4a : (4 * sphereA ray) ≠ 0 := by positivity
      exact (mul_eq_zero.mp h4).resolve_left h4a
    · rw [sphereT1, sphereT2, div_le_div_iff₀ (by positivity) (by positivity)]
      nlinarith [Real.sqrt_nonneg (sphereDisc center radius ray), ha]
    · intro t hroot
      have hzero : (2 * sphereA ray * t + sphereB center ray +
            Real.sqrt (sphereDisc center radius ray)) *
          (2 * sphereA ray * t + sphereB center ray -
            Real.sqrt (sphereDisc center radius ray)) = 0 := by
        linear_combination 4 * sphereA ray * hroot - hs
      rcases mul_eq_zero.mp hzero with h | h
      · left
        rw [sphereT1, eq_div_iff h2a]
        linear_combination h
      · right
        rw [sphereT2, eq_div_iff h2a]
        linear_combination h
  · refine ⟨fun h1 h2 => ?_, fun h1 h2 => ?_, fun h1 => ?_, fun i hi => ?_⟩
    · rw [sphereIntersect, if_neg (not_lt.mpr hd), if_pos h1, if_pos h2]
    · rw [sphereIntersect, if_neg (not_lt.mpr hd), if_pos h1, if_neg (not_lt.mpr h2)]
    · rw [sphereIntersect, if_neg (not_lt.mpr hd), if_neg (not_lt.mpr h1)]
    · rw [sphereIntersect] at hi
      split_ifs at hi with hA hB hC
      · cases hi
        exact ⟨rfl, rfl⟩
      · cases hi
        exact ⟨rfl, rfl⟩
  · have ha : sphereA ⟨⟨0, 0, 0⟩, ⟨0, 0, 1⟩⟩ = 1 := by norm_num [sphereA, dot]
    have hb : sphereB ⟨0, 0, 5⟩ ⟨⟨0, 0, 0⟩, ⟨0, 0, 1⟩⟩ = -10 := by
      norm_num [sphereB, dot, subtract]
    have hc : sphereC ⟨0, 0, 5⟩ 1 ⟨⟨0, 0, 0⟩, ⟨0, 0, 1⟩⟩ = 24 := by
      norm_num [sphereC, dot, subtract]
    have hdisc : sphereDisc ⟨0, 0, 5⟩ 1 ⟨⟨0, 0, 0⟩, ⟨0, 0, 1⟩⟩ = 4 := by
      rw [sphereDisc, ha, hb, hc]; norm_num
    have ht1 : sphereT1 ⟨0, 0, 5⟩ 1 ⟨⟨0, 0, 0⟩, ⟨0, 0, 1⟩⟩ = 4 := by
      rw [sphereT1, ha, hb, hdisc, sqrt_four]; norm_num
    have hres : sphereIntersect ⟨0, 0, 5⟩ 1 material ⟨⟨0, 0, 0⟩, ⟨0, 0, 1⟩⟩ =
        some (sphereHit ⟨0, 0, 5⟩ material ⟨⟨0, 0, 0⟩, ⟨0, 0, 1⟩⟩ 4) := by
      rw [sphereIntersect, hdisc, ht1, if_neg (by norm_num), if_neg (by norm_num)]
    have hscan : computeRayIntersection ⟨⟨0, 0, 0⟩, ⟨0, 0, 1⟩⟩
        ⟨[Geometry.sphere ⟨0, 0, 5⟩ 1 material], []⟩ =
        some (sphereHit ⟨0, 0, 5⟩ material ⟨⟨0, 0, 0⟩, ⟨0, 0, 1⟩⟩ 4) := by
      rw [computeRayIntersection]
      simp only [List.foldl, nearestStep, intersect, hres]
    rw [hscan]
    rfl

/-- Witness for `sphere_intersect_quadratic_and_scenario`: the root facts applied
to the concrete scene of the scenario (a = 1 > 0, disc = 4 ≥ 0). -/
theorem sphere_intersect_quadratic_and_scenario_witness :
    0 < sphereA ⟨⟨0, 0, 0⟩, ⟨0, 0, 1⟩⟩ ∧
    0 ≤ sphereDisc ⟨0, 0, 5⟩ 1 ⟨⟨0, 0, 0⟩, ⟨0, 0, 1⟩⟩ ∧
    sphereA ⟨⟨0, 0, 0⟩, ⟨0, 0, 1⟩⟩ *
        (sphereT1 ⟨0, 0, 5⟩ 1 ⟨⟨0, 0, 0⟩, ⟨0, 0, 1⟩⟩ *
          sphereT1 ⟨0, 0, 5⟩ 1 ⟨⟨0, 0, 0⟩, ⟨0, 0, 1⟩⟩) +
      sphereB ⟨0, 0, 5⟩ ⟨⟨0, 0, 0⟩, ⟨0, 0, 1⟩⟩ * sphereT1 ⟨0, 0, 5⟩ 1 ⟨⟨0, 0, 0⟩, ⟨0, 0, 1⟩⟩ +
      sphereC ⟨0, 0, 5⟩ 1 ⟨⟨0, 0, 0⟩, ⟨0, 0, 1⟩⟩ = 0 := by
  have ha : 0 < sphereA ⟨⟨0, 0, 0⟩, ⟨0, 0, 1⟩⟩ := by norm_num [sphereA, dot]
  have hd : 0 ≤ sphereDisc ⟨0, 0, 5⟩ 1 ⟨⟨0, 0, 0⟩, ⟨0, 0, 1⟩⟩ := by
    norm_num [sphereDisc, sphereA, sphereB, sphereC, dot, subtract]
  exact ⟨ha, hd, (sphere_intersect_quadratic_and_scenario.2.1 _ _ _ ha hd).1⟩

theorem sphereIntersect_distance_ge {center : Vector3} {radius : ℝ} {material : Material}
    {ray : Ray} {i : Intersection} (h : sphereIntersect center radius material ray = some i) :
    0.001 ≤ i.distance := by
  rw [sphereIntersect] at h
  split_ifs at h with hA hB hC
  · cases h
    exact not_lt.mp hC
  · cases h
    exact not_lt.mp hB

theorem planeIntersect_distance_ge {point normal : Vector3} {material : Material}
    {ray : Ray} {i : Intersection} (h : planeIntersect point normal material ray = some i) :
    0.001 ≤ i.distance := by
  rw [planeIntersect] at h
  split_ifs at h with hA hB hC
  · cases h
    exact not_lt.mp hC

theorem intersect_distance_ge {g : Geometry} {ray : Ray} {i : Intersection}
    (h : intersect g ray = some i) : 0.001 ≤ i.distance := by
  cases g with
  | sphere c r m => exact sphereIntersect_distance_ge h
  | plane p n m => exact planeIntersect_distance_ge h

theorem nearestStep_distance_ge (ray : Ray) (acc : Option Intersection) (obj : Geometry)
    (hacc : ∀ j, acc = some j → 0.001 ≤ j.distance) :
    ∀ j, nearestStep ray acc obj = some j → 0.001 ≤ j.distance := by
  intro j hj
  rw [nearestStep] at hj
  cases hint : intersect obj ray with
  | none =>
    rw [hint] at hj
    exact hacc j hj
  | some k =>
    rw [hint] at hj
    cases acc with
    | none =>
      cases hj
      exact intersect_distance_ge hint
    | some j' =>
      simp only at hj
      split_ifs at hj
      · cases hj
        exact intersect_distance_ge hint
      · cases hj
        exact hacc _ rfl

theorem foldl_nearestStep_distance_ge (ray : Ray) :
    ∀ (objs : List Geometry) (acc : Option Intersection),
      (∀ j, acc = some j → 0.001 ≤ j.distance) →
      ∀ i, objs.foldl (nearestStep ray) acc = some i → 0.001 ≤ i.distance := by
  intro objs
  induction objs with
  | nil =>
    intro acc hacc i h
    exact hacc i h
  | cons o os ih =>
    intro acc hacc i h
    rw [List.foldl_cons] at h
    exact ih (nearestStep ray acc o) (nearestStep_distance_ge ray acc o hacc) i h

/-- C10: every Intersection returned by `Sphere.intersect` or `Plane.intersect`
(hence by the polymorphic dispatch) has distance at least the 0.001
self-intersection guard, so `computeRayIntersection` never reports a hit closer
than the guard — which is what keeps the shadow ray cast from the exact hit
point from re-hitting its own surface. -/
theorem intersection_distance_at_least_guard :
    (∀ (g : Geometry) (ray : Ray) (i : Intersection),
        intersect g ray = some i → 0.001 ≤ i.distance)
  ∧ (∀ (ray : Ray) (scene : Scene) (i : Intersection),
        computeRayIntersection ray scene = some i → 0.001 ≤ i.distance) := by
  refine ⟨fun g ray i h => intersect_distance_ge h, fun ray scene i h => ?_⟩
  rw [computeRayIntersection] at h
  exact foldl_nearestStep_distance_ge ray scene.objects none (by intro j hj; cases hj) i h

/-- Witness for `intersection_distance_at_least_guard`: a downward ray onto the
ground plane hits at distance 2, which is at least 0.001. -/
theorem intersection_distance_at_least_guard_witness :
    computeRayIntersection ⟨⟨0, 2, 0⟩, ⟨0, -1, 0⟩⟩
        ⟨[Geometry.plane ⟨0, 0, 0⟩ ⟨0, 1, 0⟩ { color := ⟨1, 1, 1⟩ }], []⟩ =
      some ⟨⟨0, 0, 0⟩, 2, ⟨0, 1, 0⟩, { color := ⟨1, 1, 1⟩ }⟩ ∧
    (0.001 : ℝ) ≤ (2 : ℝ) := by
  have hdenom : planeDenom ⟨0, 1, 0⟩ ⟨⟨0, 2, 0⟩, ⟨0, -1, 0⟩⟩ = -1 := by
    norm_num [planeDenom, dot]
  have ht : planeT ⟨0, 0, 0⟩ ⟨0, 1, 0⟩ ⟨⟨0, 2, 0⟩, ⟨0, -1, 0⟩⟩ = 2 := by
    rw [planeT, hdenom]
    norm_num [dot, subtract]
  have hres : planeIntersect ⟨0, 0, 0⟩ ⟨0, 1, 0⟩ { color := ⟨1, 1, 1⟩ }
      ⟨⟨0, 2, 0⟩, ⟨0, -1, 0⟩⟩ = some ⟨⟨0, 0, 0⟩, 2, ⟨0, 1, 0⟩, { color := ⟨1, 1, 1⟩ }⟩ := by
    rw [planeIntersect, hdenom, ht, if_neg (by norm_num [abs_of_neg]),
      if_neg (by norm_num), if_neg (by norm_num)]
    norm_num [rayAt, add, scale]
  have hscan : computeRayIntersection ⟨⟨0, 2, 0⟩, ⟨0, -1, 0⟩⟩
      ⟨[Geometry.plane ⟨0, 0, 0⟩ ⟨0, 1, 0⟩ { color := ⟨1, 1, 1⟩ }], []⟩ =
      some ⟨⟨0, 0, 0⟩, 2, ⟨0, 1, 0⟩, { color := ⟨1, 1, 1⟩ }⟩ := by
    rw [computeRayIntersection]
    simp only [List.foldl, nearestStep, intersect, hres]
  exact ⟨hscan, intersection_distance_at_least_guard.2 _ _ _ hscan⟩

/-- All three channels of a color lie in the unit interval. -/
def Color.inUnit (c : Color) : Prop :=
  0 ≤ c.r ∧ c.r ≤ 1 ∧ 0 ≤ c.g ∧ c.g ≤ 1 ∧ 0 ≤ c.b ∧ c.b ≤ 1

theorem clampColor_inUnit (c : Color) : (clampColor c).inUnit :=
  ⟨clamp01_nonneg _, clamp01_le_one _, clamp01_nonneg _, clamp01_le_one _,
    clamp01_nonneg _, clamp01_le_one _⟩

/-- C1 counterexample: with an empty scene, `traceRay` returns the supplied
background color unclamped, so a background channel of 2 escapes the interval
[0, 1], contradicting the claim that every returned channel lies in [0, 1] even
when the background is arbitrary. -/
theorem traceRay_background_unclamped_cex :
    traceRay raytracingSettings ⟨⟨0, 0, 0⟩, ⟨0, 0, 1⟩⟩ ⟨[], []⟩ ⟨2, 0, 0⟩ 0 = ⟨2, 0, 0⟩ ∧
    ¬ ((2 : ℝ) ≤ 1) := by
  constructor
  · have hnone : computeRayIntersection ⟨⟨0, 0, 0⟩, ⟨0, 0, 1⟩⟩ ⟨[], []⟩ = none := rfl
    rw [traceRay, dif_neg (by norm_num [MAX_DEPTH]), hnone]
  · norm_num

/-- C1 (amended): `calculateLighting` always returns channels in [0, 1], and
`traceRay` returns channels in [0, 1] whenever the supplied background color has
channels in [0, 1] (on a miss or when the depth cap is exceeded the background is
passed through unclamped, so its range is the caller's responsibility). -/
theorem trace_and_shade_output_range :
    (∀ (s : RaytracingSettings) (inter : Intersection) (ray : Ray) (scene : Scene),
        (calculateLighting s inter ray scene).inUnit)
  ∧ (∀ (s : RaytracingSettings) (ray : Ray) (scene : Scene) (bg : Color) (depth : ℕ),
        bg.inUnit → (traceRay s ray scene bg depth).inUnit) := by
  constructor
  · intro s inter ray scene
    exact clampColor_inUnit _
  · intro s ray scene bg depth hbg
    rw [traceRay]
    split
    · exact hbg
    · cases h : computeRayIntersection ray scene with
      | none => exact hbg
      | some inter => exact clampColor_inUnit _

/-- Witness for `trace_and_shade_output_range`: a black background is in [0, 1]
and so is the traced color of a concrete ray over the empty scene. -/
theorem trace_and_shade_output_range_witness :
    Color.inUnit ⟨0, 0, 0⟩ ∧
    (traceRay raytracingSettings ⟨⟨0, 0, 0⟩, ⟨0, 0, 1⟩⟩ ⟨[], []⟩ ⟨0, 0, 0⟩ 0).inUnit := by
  have h : Color.inUnit ⟨0, 0, 0⟩ := by
    refine ⟨le_rfl, ?_, le_rfl, ?_, le_rfl, ?_⟩ <;> norm_num
  exact ⟨h, trace_and_shade_output_range.2 _ _ _ _ _ h⟩

/-- Channel-wise sum of a list of colors. -/
def sumColors : List Color → Color
  | [] => ⟨0, 0, 0⟩
  | c :: cs => addColor c (sumColors cs)

theorem addColor_zero (c : Color) : addColor c ⟨0, 0, 0⟩ = c := by
  simp only [addColor, add_zero]

theorem addColor_assoc (a b c : Color) :
    addColor (addColor a b) c = addColor a (addColor b c) := by
  simp only [addColor, Color.mk.injEq]
  exact ⟨by ring, by ring, by ring⟩

theorem foldl_addColor_eq_sum (f : Light → Color) :
    ∀ (lights : List Light) (init : Color),
      lights.foldl (fun c light => addColor c (f light)) init =
        addColor init (sumColors (lights.map f)) := by
  intro lights
  induction lights with
  | nil =>
    intro init
    simp only [List.foldl_nil, List.map_nil, sumColors, addColor_zero]
  | cons l ls ih =>
    intro init
    rw [List.foldl_cons, ih, List.map_cons]
    simp only [sumColors]
    rw [addColor_assoc]

/-- Attenuated intensity in the words of claim C6: point lights use
`intensity / (1 + 0.01 * distance^2)`, directional lights are unattenuated. -/
def attenuatedIntensity (point : Vector3) : Light → ℝ
  | Light.point pos _ li =>
    li / (1 + 0.01 * length (subtract pos point) * length (subtract pos point))
  | Light.directional _ _ li => li

/-- Written from the words of claim C6: per-light diffuse-plus-specular term with
the specular factor NOT gated on a positive lambertian factor; zero for a light in
shadow. -/
def claimLightTermUngated (s : RaytracingSettings) (inter : Intersection) (viewDir : Vector3)
    (scene : Scene) (light : Light) : Color :=
  let lightDir := lightDirOf inter.point light
  if inShadow s inter.point lightDir (lightDistOf inter.point light) scene then ⟨0, 0, 0⟩
  else
    let m := inter.material
    let lambertian := max (dot inter.normal lightDir) 0
    let reflectDir := subtract (scale inter.normal (2 * dot inter.normal lightDir)) lightDir
    let specFactor := Real.rpow (max (dot reflectDir viewDir) 0) m.shininess
    let atten := attenuatedIntensity inter.point light
    ⟨m.color.r * m.diffuse * lambertian * light.color.r * atten
        + specFactor * m.specular * light.color.r * atten,
      m.color.g * m.diffuse * lambertian * light.color.g * atten
        + specFactor * m.specular * light.color.g * atten,
      m.color.b * m.diffuse * lambertian * light.color.b * atten
        + specFactor * m.specular * light.color.b * atten⟩

/-- The per-light term of claim C6 amended with the code's gate: the specular
factor is zero unless the lambertian factor is positive. -/
def claimLightTermGated (s : RaytracingSettings) (inter : Intersection) (viewDir : Vector3)
    (scene : Scene) (light : Light) : Color :=
  let lightDir := lightDirOf inter.point light
  if inShadow s inter.point lightDir (lightDistOf inter.point light) scene then ⟨0, 0, 0⟩
  else
    let m := inter.material
    let lambertian := max (dot inter.normal lightDir) 0
    let reflectDir := subtract (scale inter.normal (2 * dot inter.normal lightDir)) lightDir
    let specFactor :=
      if 0 < lambertian then Real.rpow (max (dot reflectDir viewDir) 0) m.shininess else 0
    let atten := attenuatedIntensity inter.point light
    ⟨m.color.r * m.diffuse * lambertian * light.color.r * atten
        + specFactor * m.specular * light.color.r * atten,
      m.color.g * m.diffuse * lambertian * light.color.g * atten
        + specFactor * m.specular * light.color.g * atten,
      m.color.b * m.diffuse * lambertian * light.color.b * atten
        + specFactor * m.specular * light.color.b * atten⟩

/-- Ambient-plus-sum lighting exactly as worded in claim C6 (ungated specular). -/
def claimLightingUngated (s : RaytracingSettings) (inter : Intersection) (ray : Ray)
    (scene : Scene) : Color :=
  let viewDir := scale ray.direction (-1)
  let m := inter.material
  clampColor (addColor ⟨m.color.r * m.ambient, m.color.g * m.ambient, m.color.b * m.ambient⟩
    (sumColors (scene.lights.map (claimLightTermUngated s inter viewDir scene))))

/-- Ambient-plus-sum lighting as worded in claim C6 amended with the code's
specular gate. -/
def claimLightingGated (s : RaytracingSettings) (inter : Intersection) (ray : Ray)
    (scene : Scene) : Color :=
  let viewDir := scale ray.direction (-1)
  let m := inter.material
  clampColor (addColor ⟨m.color.r * m.ambient, m.color.g * m.ambient, m.color.b * m.ambient⟩
    (sumColors (scene.lights.map (claimLightTermGated s inter viewDir scene))))

theorem lightContribution_eq_gated (s : RaytracingSettings) (inter : Intersection)
    (viewDir : Vector3) (scene : Scene) (light : Light) :
    lightContribution s inter viewDir scene light =
      claimLightTermGated s inter viewDir scene light := by
  cases light with
  | point pos c li =>
    simp only [lightContribution, claimLightTermGated, attenuatedIntensity]
    split_ifs with h hl
    · rfl
    · simp only [Color.mk.injEq]
      exact ⟨by ring, by ring, by ring⟩
    · simp only [Color.mk.injEq]
      exact ⟨by ring, by ring, by ring⟩
  | directional d c li =>
    simp only [lightContribution, claimLightTermGated, attenuatedIntensity]
    split_ifs with h hl
    · rfl
    · simp only [Color.mk.injEq]
      exact ⟨by ring, by ring, by ring⟩
    · simp only [Color.mk.injEq]
      exact ⟨by ring, by ring, by ring⟩

/-- C6 (amended): `calculateLighting` returns exactly the ambient term plus, for
each light not in shadow, the claimed diffuse and specular terms with the claimed
attenuation, clamped channel-wise — except that the specular term is included only
when `dot(normal, lightDir) > 0` (the code zeroes it otherwise). -/
theorem calculateLighting_formula_gated :
    ∀ (s : RaytracingSettings) (inter : Intersection) (ray : Ray) (scene : Scene),
      calculateLighting s inter ray scene = claimLightingGated s inter ray scene := by
  intro s inter ray scene
  simp only [calculateLighting, claimLightingGated]
  rw [foldl_addColor_eq_sum]
  have hfun : lightContribution s inter (scale ray.direction (-1)) scene =
      claimLightTermGated s inter (scale ray.direction (-1)) scene :=
    funext (lightContribution_eq_gated s inter (scale ray.direction (-1)) scene)
  rw [hfun]

/-- Intersection point used to refute the ungated specular formula of claim C6. -/
def cexShadeInter : Intersection :=
  ⟨⟨0, 0, 0⟩, 1, ⟨0, 1, 0⟩, { color := ⟨1, 1, 1⟩ }⟩

/-- Viewing ray used to refute the ungated specular formula of claim C6. -/
def cexShadeRay : Ray :=
  ⟨⟨0, 0, 0⟩, ⟨0, 1, 0⟩⟩

/-- Scene used to refute the ungated specular formula of claim C6: no occluders
and one directional light shining from straight below the surface. -/
def cexShadeScene : Scene :=
  ⟨[], [Light.directional ⟨0, 1, 0⟩ ⟨1, 1, 1⟩ 1]⟩

/-- C6 counterexample: for a light behind the surface (lambertian = 0) the code
returns only the ambient 0.1, while the claim's ungated formula adds a full
specular highlight and returns 0.4 on the red channel. -/
theorem lighting_ungated_specular_cex :
    (calculateLighting raytracingSettings cexShadeInter cexShadeRay cexShadeScene).r = 0.1 ∧
    (claimLightingUngated raytracingSettings cexShadeInter cexShadeRay cexShadeScene).r = 0.4 ∧
    (0.1 : ℝ) ≠ 0.4 := by
  have hdirl : lightDirOf (⟨0, 0, 0⟩ : Vector3) (Light.directional ⟨0, 1, 0⟩ ⟨1, 1, 1⟩ 1) =
      ⟨0, -1, 0⟩ := by
    simp only [lightDirOf, scale]
    norm_num
  have hsh : ∀ (v : Vector3) (d : Option ℝ),
      inShadow raytracingSettings ⟨0, 0, 0⟩ v d cexShadeScene = false := by
    intro v d
    simp [inShadow, computeRayIntersection, cexShadeScene]
  have hlam : max (dot ⟨0, 1, 0⟩ ⟨0, -1, 0⟩) 0 = 0 := by
    rw [show dot ⟨0, 1, 0⟩ ⟨0, -1, 0⟩ = -1 by norm_num [dot]]
    exact max_eq_right (by norm_num)
  have hview : scale (⟨0, 1, 0⟩ : Vector3) (-1) = ⟨0, -1, 0⟩ := by
    simp only [scale]
    norm_num
  have hcontr : lightContribution raytracingSettings cexShadeInter ⟨0, -1, 0⟩ cexShadeScene
      (Light.directional ⟨0, 1, 0⟩ ⟨1, 1, 1⟩ 1) = ⟨0, 0, 0⟩ := by
    simp only [lightContribution, cexShadeInter, hdirl, hsh, Bool.false_eq_true, if_false,
      hlam, lt_self_iff_false, Light.color, Light.intensity]
    norm_num
  have hcode : calculateLighting raytracingSettings cexShadeInter cexShadeRay cexShadeScene =
      clampColor ⟨0.1, 0.1, 0.1⟩ := by
    simp only [calculateLighting, cexShadeScene, cexShadeRay, cexShadeInter, hview,
      List.foldl_cons, List.foldl_nil]
    rw [show (⟨⟨0, 0, 0⟩, 1, ⟨0, 1, 0⟩, { color := ⟨1, 1, 1⟩ }⟩ : Intersection) =
      cexShadeInter from rfl, show (⟨[], [Light.directional ⟨0, 1, 0⟩ ⟨1, 1, 1⟩ 1]⟩ : Scene) =
      cexShadeScene from rfl, hcontr]
    simp only [addColor]
    norm_num
  have hspec : Real.rpow (max (dot (subtract (scale (⟨0, 1, 0⟩ : Vector3)
      (2 * dot ⟨0, 1, 0⟩ ⟨0, -1, 0⟩)) ⟨0, -1, 0⟩) ⟨0, -1, 0⟩) 0) 32 = 1 := by
    have harg : max (dot (subtract (scale (⟨0, 1, 0⟩ : Vector3)
        (2 * dot ⟨0, 1, 0⟩ ⟨0, -1, 0⟩)) ⟨0, -1, 0⟩) ⟨0, -1, 0⟩) 0 = 1 := by
      rw [show dot (subtract (scale (⟨0, 1, 0⟩ : Vector3)
        (2 * dot ⟨0, 1, 0⟩ ⟨0, -1, 0⟩)) ⟨0, -1, 0⟩) ⟨0, -1, 0⟩ = 1 by
          norm_num [dot, subtract, scale]]
      exact max_eq_left (by norm_num)
    rw [harg]
    exact Real.one_rpow 32
  have hterm : claimLightTermUngated raytracingSettings cexShadeInter ⟨0, -1, 0⟩ cexShadeScene
      (Light.directional ⟨0, 1, 0⟩ ⟨1, 1, 1⟩ 1) = ⟨0.3, 0.3, 0.3⟩ := by
    simp only [claimLightTermUngated, cexShadeInter, hdirl, hsh, Bool.false_eq_true, if_false,
      hlam, attenuatedIntensity, Light.color]
    rw [hspec]
    norm_num
  have hclaim : claimLightingUngated raytracingSettings cexShadeInter cexShadeRay cexShadeScene =
      clampColor ⟨0.4, 0.4, 0.4⟩ := by
    simp only [claimLightingUngated, cexShadeScene, cexShadeRay, cexShadeInter, hview,
      List.map_cons, List.map_nil, sumColors]
    rw [show (⟨⟨0, 0, 0⟩, 1, ⟨0, 1, 0⟩, { color := ⟨1, 1, 1⟩ }⟩ : Intersection) =
      cexShadeInter from rfl, show (⟨[], [Light.directional ⟨0, 1, 0⟩ ⟨1, 1, 1⟩ 1]⟩ : Scene) =
      cexShadeScene from rfl, hterm]
    simp only [addColor_zero, addColor]
    norm_num
  refine ⟨?_, ?_, by norm_num⟩
  · rw [hcode]
    simp only [clampColor, clamp01]
    rw [max_eq_right (by norm_num : (0 : ℝ) ≤ 0.1), min_eq_right (by norm_num : (0.1 : ℝ) ≤ 1)]
  · rw [hclaim]
    simp only [clampColor, clamp01]
    rw [max_eq_right (by norm_num : (0 : ℝ) ≤ 0.4), min_eq_right (by norm_num : (0.4 : ℝ) ≤ 1)]

/-- All reflectance coefficients and color channels of a material are non-negative. -/
def MaterialNonneg (m : Material) : Prop :=
  0 ≤ m.color.r ∧ 0 ≤ m.color.g ∧ 0 ≤ m.color.b ∧ 0 ≤ m.diffuse ∧ 0 ≤ m.specular ∧
    0 ≤ m.ambient

/-- Color channels and intensity of a light are non-negative. -/
def LightNonneg (l : Light) : Prop :=
  0 ≤ l.color.r ∧ 0 ≤ l.color.g ∧ 0 ≤ l.color.b ∧ 0 ≤ l.intensity

/-- Channel-wise order on colors. -/
def colorLE (c d : Color) : Prop :=
  c.r ≤ d.r ∧ c.g ≤ d.g ∧ c.b ≤ d.b

theorem phong_channel_nonneg {mc md lam lc ms sp intens : ℝ}
    (h1 : 0 ≤ mc) (h2 : 0 ≤ md) (h3 : 0 ≤ lam) (h4 : 0 ≤ lc) (h5 : 0 ≤ ms)
    (h6 : 0 ≤ sp) (h7 : 0 ≤ intens) :
    0 ≤ mc * md * lam * lc * intens + lc * (ms * sp * intens) :=
  add_nonneg (mul_nonneg (mul_nonneg (mul_nonneg (mul_nonneg h1 h2) h3) h4) h7)
    (mul_nonneg h4 (mul_nonneg (mul_nonneg h5 h6) h7))

theorem lightContribution_nonneg (s : RaytracingSettings) (inter : Intersection)
    (viewDir : Vector3) (scene : Scene) (light : Light)
    (hm : MaterialNonneg inter.material) (hl : LightNonneg light) :
    colorLE ⟨0, 0, 0⟩ (lightContribution s inter viewDir scene light) := by
  obtain ⟨hmr, hmg, hmb, hmd, hms, -⟩ := hm
  cases light with
  | point pos c li =>
    obtain ⟨hlr, hlg, hlb, hli⟩ := hl
    simp only [Light.color, Light.intensity] at hlr hlg hlb hli
    have hint : 0 ≤ li / (1 + 0.01 * length (subtract pos inter.point) *
        length (subtract pos inter.point)) :=
      div_nonneg hli (by nlinarith [length_nonneg (subtract pos inter.point)])
    simp only [lightContribution, Light.color, Light.intensity, colorLE]
    split_ifs with hsh hlam
    · exact ⟨le_rfl, le_rfl, le_rfl⟩
    · have hsp : 0 ≤ Real.rpow (max (dot (subtract (scale inter.normal
          (2 * dot inter.normal (lightDirOf inter.point (Light.point pos c li))))
          (lightDirOf inter.point (Light.point pos c li))) viewDir) 0)
          inter.material.shininess :=
        Real.rpow_nonneg (le_max_right _ _) _
      exact ⟨phong_channel_nonneg hmr hmd (le_max_right _ _) hlr hms hsp hint,
        phong_channel_nonneg hmg hmd (le_max_right _ _) hlg hms hsp hint,
        phong_channel_nonneg hmb hmd (le_max_right _ _) hlb hms hsp hint⟩
    · exact ⟨phong_channel_nonneg hmr hmd (le_max_right _ _) hlr hms le_rfl hint,
        phong_channel_nonneg hmg hmd (le_max_right _ _) hlg hms le_rfl hint,
        phong_channel_nonneg hmb hmd (le_max_right _ _) hlb hms le_rfl hint⟩
  | directional d c li =>
    obtain ⟨hlr, hlg, hlb, hli⟩ := hl
    simp only [Light.color, Light.intensity] at hlr hlg hlb hli
    simp only [lightContribution, Light.color, Light.intensity, colorLE]
    split_ifs with hsh hlam
    · exact ⟨le_rfl, le_rfl, le_rfl⟩
    · have hsp : 0 ≤ Real.rpow (max (dot (subtract (scale inter.normal
          (2 * dot inter.normal (lightDirOf inter.point (Light.directional d c li))))
          (lightDirOf inter.point (Light.directional d c li))) viewDir) 0)
          inter.material.shininess :=
        Real.rpow_nonneg (le_max_right _ _) _
      exact ⟨phong_channel_nonneg hmr hmd (le_max_right _ _) hlr hms hsp hli,
        phong_channel_nonneg hmg hmd (le_max_right _ _) hlg hms hsp hli,
        phong_channel_nonneg hmb hmd (le_max_right _ _) hlb hms hsp hli⟩
    · exact ⟨phong_channel_nonneg hmr hmd (le_max_right _ _) hlr hms le_rfl hli,
        phong_channel_nonneg hmg hmd (le_max_right _ _) hlg hms le_rfl hli,
        phong_channel_nonneg hmb hmd (le_max_right _ _) hlb hms le_rfl hli⟩

theorem lightContribution_shadow_mono (s : RaytracingSettings) (inter : Intersection)
    (viewDir : Vector3) (scene : Scene) (light : Light)
    (hm : MaterialNonneg inter.material) (hl : LightNonneg light) :
    colorLE (lightContribution { s with enableShadows := true } inter viewDir scene light)
      (lightContribution { s with enableShadows := false } inter viewDir scene light) := by
  have hoff : inShadow { s with enableShadows := false } inter.point
      (lightDirOf inter.point light) (lightDistOf inter.point light) scene = false := by
    simp [inShadow]
  by_cases hon : inShadow { s with enableShadows := true } inter.point
      (lightDirOf inter.point light) (lightDistOf inter.point light) scene = true
  · have hL : lightContribution { s with enableShadows := true } inter viewDir scene light =
        ⟨0, 0, 0⟩ := by
      simp only [lightContribution.eq_def, hon, if_true]
    rw [hL]
    exact lightContribution_nonneg _ inter viewDir scene light hm hl
  · simp only [lightContribution.eq_def, hoff, Bool.false_eq_true, if_false, if_neg hon]
    exact ⟨le_rfl, le_rfl, le_rfl⟩

theorem sumColors_mono (f g : Light → Color) :
    ∀ (lights : List Light), (∀ l ∈ lights, colorLE (f l) (g l)) →
      colorLE (sumColors (lights.map f)) (sumColors (lights.map g)) := by
  intro lights
  induction lights with
  | nil =>
    intro h
    exact ⟨le_rfl, le_rfl, le_rfl⟩
  | cons l ls ih =>
    intro h
    have h1 := h l (List.mem_cons_self l ls)
    have h2 := ih (fun x hx => h x (List.mem_cons_of_mem l hx))
    simp only [List.map_cons, sumColors, addColor, colorLE]
    exact ⟨add_le_add h1.1 h2.1, add_le_add h1.2.1 h2.2.1, add_le_add h1.2.2 h2.2.2⟩

theorem clampColor_mono {c d : Color} (h : colorLE c d) :
    colorLE (clampColor c) (clampColor d) :=
  ⟨clamp01_mono h.1, clamp01_mono h.2.1, clamp01_mono h.2.2⟩

/-- C9: for non-negative material coefficients and light colors/intensities,
disabling shadows never decreases the color computed by `calculateLighting`,
channel-wise. -/
theorem disabling_shadows_never_darkens :
    ∀ (s : RaytracingSettings) (inter : Intersection) (ray : Ray) (scene : Scene),
      MaterialNonneg inter.material → (∀ l ∈ scene.lights, LightNonneg l) →
      colorLE (calculateLighting { s with enableShadows := true } inter ray scene)
        (calculateLighting { s with enableShadows := false } inter ray scene) := by
  intro s inter ray scene hm hlights
  simp only [calculateLighting]
  rw [foldl_addColor_eq_sum, foldl_addColor_eq_sum]
  apply clampColor_mono
  have hsum := sumColors_mono _ _ scene.lights
    (fun l hl => lightContribution_shadow_mono s inter (scale ray.direction (-1)) scene l hm
      (hlights l hl))
  exact ⟨add_le_add le_rfl hsum.1, add_le_add le_rfl hsum.2.1, add_le_add le_rfl hsum.2.2⟩

/-- Witness for `disabling_shadows_never_darkens`: a concrete red surface lit by
one point light, with the non-negativity side conditions discharged. -/
theorem disabling_shadows_never_darkens_witness :
    MaterialNonneg (⟨⟨0, 0, 0⟩, 1, ⟨0, 1, 0⟩, { color := ⟨1, 0, 0⟩ }⟩ : Intersection).material ∧
    (∀ l ∈ (⟨[], [Light.point ⟨0, 2, 0⟩ ⟨1, 1, 1⟩ 1]⟩ : Scene).lights, LightNonneg l) ∧
    colorLE
      (calculateLighting { raytracingSettings with enableShadows := true }
        ⟨⟨0, 0, 0⟩, 1, ⟨0, 1, 0⟩, { color := ⟨1, 0, 0⟩ }⟩ ⟨⟨0, 3, 0⟩, ⟨0, -1, 0⟩⟩
        ⟨[], [Light.point ⟨0, 2, 0⟩ ⟨1, 1, 1⟩ 1]⟩)
      (calculateLighting { raytracingSettings with enableShadows := false }
        ⟨⟨0, 0, 0⟩, 1, ⟨0, 1, 0⟩, { color := ⟨1, 0, 0⟩ }⟩ ⟨⟨0, 3, 0⟩, ⟨0, -1, 0⟩⟩
        ⟨[], [Light.point ⟨0, 2, 0⟩ ⟨1, 1, 1⟩ 1]⟩) := by
  have hm : MaterialNonneg
      (⟨⟨0, 0, 0⟩, 1, ⟨0, 1, 0⟩, { color := ⟨1, 0, 0⟩ }⟩ : Intersection).material := by
    refine ⟨?_, ?_, ?_, ?_, ?_, ?_⟩ <;> norm_num
  have hlights : ∀ l ∈ (⟨[], [Light.point ⟨0, 2, 0⟩ ⟨1, 1, 1⟩ 1]⟩ : Scene).lights,
      LightNonneg l := by
    intro l hl
    simp only [List.mem_singleton] at hl
    subst hl
    refine ⟨?_, ?_, ?_, ?_⟩ <;> simp [Light.color, Light.intensity]
  exact ⟨hm, hlights, disabling_shadows_never_darkens _ _ _ _ hm hlights⟩

theorem inShadow_congr {s₁ s₂ : RaytracingSettings} (h : s₁.enableShadows = s₂.enableShadows)
    (point lightDir : Vector3) (lightDist : Option ℝ) (scene : Scene) :
    inShadow s₁ point lightDir lightDist scene = inShadow s₂ point lightDir lightDist scene := by
  simp only [inShadow, h]

theorem lightContribution_congr {s₁ s₂ : RaytracingSettings}
    (h : s₁.enableShadows = s₂.enableShadows) (inter : Intersection) (viewDir : Vector3)
    (scene : Scene) (light : Light) :
    lightContribution s₁ inter viewDir scene light =
      lightContribution s₂ inter viewDir scene light := by
  simp only [lightContribution.eq_def, inShadow_congr h]

theorem calculateLighting_congr {s₁ s₂ : RaytracingSettings}
    (h : s₁.enableShadows = s₂.enableShadows) (inter : Intersection) (ray : Ray)
    (scene : Scene) :
    calculateLighting s₁ inter ray scene = calculateLighting s₂ inter ray scene := by
  simp only [calculateLighting, lightContribution_congr h]

theorem traceRay_congr {s₁ s₂ : RaytracingSettings}
    (hsh : s₁.enableShadows = s₂.enableShadows)
    (hrefr : s₁.enableRefraction = s₂.enableRefraction) :
    ∀ (fuel depth : ℕ), MAX_DEPTH + 1 - depth ≤ fuel →
      ∀ (ray : Ray) (scene : Scene) (bg : Color),
        traceRay s₁ ray scene bg depth = traceRay s₂ ray scene bg depth := by
  intro fuel
  induction fuel with
  | zero =>
    intro depth hle ray scene bg
    have hd : depth > MAX_DEPTH := by omega
    rw [traceRay, traceRay, dif_pos hd, dif_pos hd]
  | succ n ih =>
    intro depth hle ray scene bg
    by_cases hd : depth > MAX_DEPTH
    · rw [traceRay, traceRay, dif_pos hd, dif_pos hd]
    · rw [traceRay, traceRay, dif_neg hd, dif_neg hd]
      cases hI : computeRayIntersection ray scene with
      | none => rfl
      | some inter =>
        simp only [hI]
        simp only [calculateLighting_congr hsh, hrefr,
          ih (depth + 1) (by omega)]

/-- C3: the recursion of `traceRay` is hard-capped: MAX_DEPTH is the constant 5,
every call with depth > 5 returns the background color immediately, and the
result is entirely independent of the `maxReflectionDepth` setting (whose default
is 3) — so raising that setting does not change the cap.  Termination itself is
witnessed by `traceRay` being a total function (defined by well-founded recursion
on `MAX_DEPTH + 1 - depth`). -/
theorem traceRay_depth_cap_fixed :
    MAX_DEPTH = 5
  ∧ (∀ (s : RaytracingSettings) (ray : Ray) (scene : Scene) (bg : Color) (depth : ℕ),
      5 < depth → traceRay s ray scene bg depth = bg)
  ∧ (∀ (s : RaytracingSettings) (n : ℕ) (ray : Ray) (scene : Scene) (bg : Color) (depth : ℕ),
      traceRay { s with maxReflectionDepth := n } ray scene bg depth =
        traceRay s ray scene bg depth)
  ∧ raytracingSettings.maxReflectionDepth = 3 := by
  refine ⟨rfl, fun s ray scene bg depth h => ?_, fun s n ray scene bg depth => ?_, rfl⟩
  · rw [traceRay, dif_pos (show depth > MAX_DEPTH from h)]
  · exact @traceRay_congr { s with maxReflectionDepth := n } s rfl rfl (MAX_DEPTH + 1) depth
      (by omega) ray scene bg

/-- Witness for `traceRay_depth_cap_fixed`: at depth 6 over a concrete scene the
tracer returns the background color. -/
theorem traceRay_depth_cap_fixed_witness :
    5 < 6 ∧
    traceRay raytracingSettings ⟨⟨0, 0, 0⟩, ⟨0, 0, 1⟩⟩ ⟨[], []⟩ ⟨0, 1, 0⟩ 6 = ⟨0, 1, 0⟩ :=
  ⟨by norm_num, traceRay_depth_cap_fixed.2.1 _ _ _ _ 6 (by norm_num)⟩

theorem panDir_dot (cam : Camera) (degrees : ℝ) :
    dot (panDir cam degrees) (panDir cam degrees) = dot cam.direction cam.direction := by
  simp only [panDir, dot]
  have h := Real.sin_sq_add_cos_sq (-degrees * Real.pi / 180)
  linear_combination (cam.direction.x * cam.direction.x +
    cam.direction.z * cam.direction.z) * h

theorem tiltDir_dot (cam : Camera) (degrees : ℝ) :
    dot (tiltDir cam degrees) (tiltDir cam degrees) = dot cam.direction cam.direction := by
  simp only [tiltDir, dot]
  have h := Real.sin_sq_add_cos_sq (degrees * Real.pi / 180)
  linear_combination (cam.direction.y * cam.direction.y +
    cam.direction.z * cam.direction.z) * h

theorem pan_orthonormal (cam : Camera) (degrees : ℝ)
    (hdir : length cam.direction = 1)
    (hcross : length (cross (normalize (panDir cam degrees)) cam.up) ≠ 0) :
    length (cam.pan degrees).direction = 1 ∧
    length (cam.pan degrees).right = 1 ∧
    length (cam.pan degrees).up = 1 ∧
    dot (cam.pan degrees).direction (cam.pan degrees).right = 0 ∧
    dot (cam.pan degrees).direction (cam.pan degrees).up = 0 ∧
    dot (cam.pan degrees).right (cam.pan degrees).up = 0 := by
  have hdd : dot cam.direction cam.direction = 1 := by
    have := length_mul_self cam.direction
    rw [hdir] at this
    linarith
  have hpd : dot (panDir cam degrees) (panDir cam degrees) = 1 := by
    rw [panDir_dot, hdd]
  have hlpd : length (panDir cam degrees) = 1 := length_eq_one_of_dot _ hpd
  have hd1 : length (normalize (panDir cam degrees)) = 1 :=
    length_normalize _ (by rw [hlpd]; exact one_ne_zero)
  have hddn : dot (normalize (panDir cam degrees)) (normalize (panDir cam degrees)) = 1 := by
    have := length_mul_self (normalize (panDir cam degrees))
    rw [hd1] at this
    linarith
  have hr1 : length (normalize (cross (normalize (panDir cam degrees)) cam.up)) = 1 :=
    length_normalize _ hcross
  have hdr : dot (normalize (panDir cam degrees))
      (normalize (cross (normalize (panDir cam degrees)) cam.up)) = 0 := by
    rw [dot_normalize_right, dot_comm, dot_cross_left, zero_div]
  have hrr : dot (normalize (cross (normalize (panDir cam degrees)) cam.up))
      (normalize (cross (normalize (panDir cam degrees)) cam.up)) = 1 := by
    have := length_mul_self (normalize (cross (normalize (panDir cam degrees)) cam.up))
    rw [hr1] at this
    linarith
  have hcr : dot (cross (normalize (cross (normalize (panDir cam degrees)) cam.up))
        (normalize (panDir cam degrees)))
      (cross (normalize (cross (normalize (panDir cam degrees)) cam.up))
        (normalize (panDir cam degrees))) = 1 := by
    rw [cross_lagrange, hrr, hddn, dot_comm, hdr]
    norm_num
  have hu1 : length (normalize (cross (normalize (cross (normalize (panDir cam degrees))
      cam.up)) (normalize (panDir cam degrees)))) = 1 :=
    length_normalize _ (by rw [length_eq_one_of_dot _ hcr]; exact one_ne_zero)
  have hdu : dot (normalize (panDir cam degrees))
      (normalize (cross (normalize (cross (normalize (panDir cam degrees)) cam.up))
        (normalize (panDir cam degrees)))) = 0 := by
    rw [dot_normalize_right, dot_comm, dot_cross_right, zero_div]
  have hru : dot (normalize (cross (normalize (panDir cam degrees)) cam.up))
      (normalize (cross (normalize (cross (normalize (panDir cam degrees)) cam.up))
        (normalize (panDir cam degrees)))) = 0 := by
    rw [dot_normalize_right, dot_comm, dot_cross_left, zero_div]
  exact ⟨hd1, hr1, hu1, hdr, hdu, hru⟩

theorem tilt_up_reorthogonalized (cam : Camera) (degrees : ℝ)
    (hdir : length cam.direction = 1) (hright : length cam.right = 1)
    (hcross : length (cross cam.right (normalize (tiltDir cam degrees))) ≠ 0) :
    length (cam.tilt degrees).direction = 1 ∧
    length (cam.tilt degrees).right = 1 ∧
    length (cam.tilt degrees).up = 1 ∧
    dot (cam.tilt degrees).right (cam.tilt degrees).up = 0 ∧
    dot (cam.tilt degrees).direction (cam.tilt degrees).up = 0 := by
  have hdd : dot cam.direction cam.direction = 1 := by
    have := length_mul_self cam.direction
    rw [hdir] at this
    linarith
  have htd : dot (tiltDir cam degrees) (tiltDir cam degrees) = 1 := by
    rw [tiltDir_dot, hdd]
  have hltd : length (tiltDir cam degrees) = 1 := length_eq_one_of_dot _ htd
  have hd1 : length (normalize (tiltDir cam degrees)) = 1 :=
    length_normalize _ (by rw [hltd]; exact one_ne_zero)
  have hu1 : length (normalize (cross cam.right (normalize (tiltDir cam degrees)))) = 1 :=
    length_normalize _ hcross
  have hru : dot cam.right (normalize (cross cam.right (normalize (tiltDir cam degrees)))) = 0 := by
    rw [dot_normalize_right, dot_comm, dot_cross_left, zero_div]
  have hdu : dot (normalize (tiltDir cam degrees))
      (normalize (cross cam.right (normalize (tiltDir cam degrees)))) = 0 := by
    rw [dot_normalize_right, dot_comm, dot_cross_right, zero_div]
  exact ⟨hd1, hright, hu1, hru, hdu⟩

/-- C2 (amended): `pan` re-derives the whole basis, so after every pan call (unit
direction, nondegenerate cross product) the three camera vectors are again
pairwise orthogonal unit vectors; `tilt` re-derives only `up`, so after a tilt
call `up` is a unit vector orthogonal to both `right` and `direction` and all
three vectors remain unit, but `right` need not stay orthogonal to `direction`
(see the counterexample), so the invariant survives pan but not arbitrary
pan/tilt sequences. -/
theorem camera_pan_tilt_orthonormal_amended :
    (∀ (cam : Camera) (degrees : ℝ),
        length cam.direction = 1 →
        length (cross (normalize (panDir cam degrees)) cam.up) ≠ 0 →
        (length (cam.pan degrees).direction = 1 ∧
          length (cam.pan degrees).right = 1 ∧
          length (cam.pan degrees).up = 1 ∧
          dot (cam.pan degrees).direction (cam.pan degrees).right = 0 ∧
          dot (cam.pan degrees).direction (cam.pan degrees).up = 0 ∧
          dot (cam.pan degrees).right (cam.pan degrees).up = 0))
  ∧ (∀ (cam : Camera) (degrees : ℝ),
        length cam.direction = 1 → length cam.right = 1 →
        length (cross cam.right (normalize (tiltDir cam degrees))) ≠ 0 →
        (length (cam.tilt degrees).direction = 1 ∧
          length (cam.tilt degrees).right = 1 ∧
          length (cam.tilt degrees).up = 1 ∧
          dot (cam.tilt degrees).right (cam.tilt degrees).up = 0 ∧
          dot (cam.tilt degrees).direction (cam.tilt degrees).up = 0)) :=
  ⟨pan_orthonormal, tilt_up_reorthogonalized⟩

/-- Orthonormal camera frame used to refute claim C2: direction (3/5, 0, 4/5),
right (4/5, 0, -3/5), up (0, -1, 0). -/
def cexCam : Camera :=
  ⟨⟨0, 0, 0⟩, ⟨3/5, 0, 4/5⟩, ⟨4/5, 0, -(3/5)⟩, ⟨0, -1, 0⟩⟩

/-- C2 counterexample: `cexCam` is a pairwise orthogonal unit frame and the tilt
rotation is nondegenerate, yet after a single `tilt 90` the dot product of
`right` and `direction` is 12/25 ≠ 0 — the basis does not remain pairwise
orthogonal after an arbitrary tilt. -/
theorem camera_tilt_breaks_orthogonality_cex :
    (length cexCam.direction = 1 ∧ length cexCam.right = 1 ∧ length cexCam.up = 1 ∧
      dot cexCam.direction cexCam.right = 0 ∧ dot cexCam.direction cexCam.up = 0 ∧
      dot cexCam.right cexCam.up = 0)
  ∧ length (cross cexCam.right (normalize (tiltDir cexCam 90))) ≠ 0
  ∧ dot (cexCam.tilt 90).right ((cexCam.tilt 90).direction) = 12 / 25
  ∧ (12 : ℝ) / 25 ≠ 0 := by
  have hrad : (90 : ℝ) * Real.pi / 180 = Real.pi / 2 := by ring
  have htd : tiltDir cexCam 90 = ⟨3/5, -(4/5), 0⟩ := by
    simp only [tiltDir, cexCam, hrad, Real.cos_pi_div_two, Real.sin_pi_div_two]
    norm_num
  have hl : length (⟨3/5, -(4/5), 0⟩ : Vector3) = 1 :=
    length_eq_one_of_dot _ (by norm_num [dot])
  have hnd : normalize (⟨3/5, -(4/5), 0⟩ : Vector3) = ⟨3/5, -(4/5), 0⟩ := by
    rw [normalize, if_neg (by rw [hl]; exact one_ne_zero), hl]
    norm_num
  refine ⟨⟨length_eq_one_of_dot _ (by norm_num [dot, cexCam]),
      length_eq_one_of_dot _ (by norm_num [dot, cexCam]),
      length_eq_one_of_dot _ (by norm_num [dot, cexCam]), by norm_num [dot, cexCam],
      by norm_num [dot, cexCam], by norm_num [dot, cexCam]⟩, ?_, ?_, by norm_num⟩
  · rw [htd, hnd]
    have hc : cross cexCam.right ⟨3/5, -(4/5), 0⟩ = ⟨-(12/25), -(9/25), -(16/25)⟩ := by
      simp only [cross, cexCam]
      norm_num
    rw [hc, length]
    rw [show dot ⟨-(12/25), -(9/25), -(16/25)⟩ ⟨-(12/25), -(9/25), -(16/25)⟩ = 481/625 by
      norm_num [dot]]
    exact Real.sqrt_ne_zero'.mpr (by norm_num)
  · have hdir : (cexCam.tilt 90).direction = ⟨3/5, -(4/5), 0⟩ := by
      simp only [Camera.tilt, htd, hnd]
    have hright : (cexCam.tilt 90).right = ⟨4/5, 0, -(3/5)⟩ := rfl
    rw [hdir, hright]
    norm_num [dot]

/-- Witness for `camera_pan_tilt_orthonormal_amended`: its pan conjunct applied to
the default-style camera frame with a 0-degree pan; the hypotheses are discharged
by computation. -/
theorem camera_pan_tilt_orthonormal_amended_witness :
    length (⟨⟨0, 0, 0⟩, ⟨0, 0, 1⟩, ⟨-1, 0, 0⟩, ⟨0, 1, 0⟩⟩ : Camera).direction = 1 ∧
    length (cross (normalize (panDir ⟨⟨0, 0, 0⟩, ⟨0, 0, 1⟩, ⟨-1, 0, 0⟩, ⟨0, 1, 0⟩⟩ 0))
      (⟨⟨0, 0, 0⟩, ⟨0, 0, 1⟩, ⟨-1, 0, 0⟩, ⟨0, 1, 0⟩⟩ : Camera).up) ≠ 0 ∧
    dot ((⟨⟨0, 0, 0⟩, ⟨0, 0, 1⟩, ⟨-1, 0, 0⟩, ⟨0, 1, 0⟩⟩ : Camera).pan 0).direction
      ((⟨⟨0, 0, 0⟩, ⟨0, 0, 1⟩, ⟨-1, 0, 0⟩, ⟨0, 1, 0⟩⟩ : Camera).pan 0).right = 0 := by
  have hdir : length (⟨⟨0, 0, 0⟩, ⟨0, 0, 1⟩, ⟨-1, 0, 0⟩, ⟨0, 1, 0⟩⟩ : Camera).direction = 1 :=
    length_eq_one_of_dot _ (by norm_num [dot])
  have hpd : panDir ⟨⟨0, 0, 0⟩, ⟨0, 0, 1⟩, ⟨-1, 0, 0⟩, ⟨0, 1, 0⟩⟩ 0 = ⟨0, 0, 1⟩ := by
    simp only [panDir, show (-(0 : ℝ)) * Real.pi / 180 = 0 by ring, Real.cos_zero,
      Real.sin_zero]
    norm_num
  have hl : length (⟨0, 0, 1⟩ : Vector3) = 1 := length_eq_one_of_dot _ (by norm_num [dot])
  have hnd : normalize (⟨0, 0, 1⟩ : Vector3) = ⟨0, 0, 1⟩ := by
    rw [normalize, if_neg (by rw [hl]; exact one_ne_zero), hl]
    norm_num
  have hcross : length (cross (normalize (panDir ⟨⟨0, 0, 0⟩, ⟨0, 0, 1⟩, ⟨-1, 0, 0⟩,
      ⟨0, 1, 0⟩⟩ 0)) (⟨⟨0, 0, 0⟩, ⟨0, 0, 1⟩, ⟨-1, 0, 0⟩, ⟨0, 1, 0⟩⟩ : Camera).up) ≠ 0 := by
    rw [hpd, hnd]
    rw [show cross (⟨0, 0, 1⟩ : Vector3) (⟨⟨0, 0, 0⟩, ⟨0, 0, 1⟩, ⟨-1, 0, 0⟩,
      ⟨0, 1, 0⟩⟩ : Camera).up = ⟨-1, 0, 0⟩ by simp only [cross]; norm_num]
    rw [length_eq_one_of_dot _ (by norm_num [dot])]
    exact one_ne_zero
  exact ⟨hdir, hcross,
    (camera_pan_tilt_orthonormal_amended.1 _ 0 hdir hcross).2.2.2.1⟩

end Raytracer
